import Mathlib

/-!
Shallow embedding of the event-dispatch and predicate-composition core of
the Qbot-MeloBot repository (files src/melobot/core/dispatcher.py and
src/src/melobot/base/abc.py), together with theorems settling the claims
about it.

Python values stored in tag stores and action parameter payloads are
modelled by the inductive type PyVal; Python callables (handler evoke
coroutines, checker callbacks) are modelled by Lean functions or by opaque
numeric references where only reference identity matters; a Python
exception is modelled by its class name, message and formatted traceback;
a raised exception is modelled with Except or with an Option error
component threaded through the state that mutation left behind.
-/

/-- Python-style atomic value, as stored in a tag store (Flagable) or an
action parameter dict. None is a distinguished value; comparison `==` on
these atoms coincides with structural equality. -/
inductive PyVal where
  | pnone : PyVal
  | pbool (b : Bool) : PyVal
  | pint (n : Int) : PyVal
  | pstr (s : String) : PyVal
deriving DecidableEq, Repr

/-- Python dict lookup `d.get(k)` on an insertion-ordered association list. -/
def dictGet (d : List (String × α)) (k : String) : Option α :=
  List.lookup k d

/-- Python dict assignment `d[k] = v`: overwrite in place if the key exists,
else append preserving insertion order. -/
def dictSet (d : List (String × α)) (k : String) (v : α) : List (String × α) :=
  if (List.lookup k d).isSome then
    d.map (fun p => bif p.1 == k then (k, v) else p)
  else
    d ++ [(k, v)]

/-- Embeds Flagable (src/src/melobot/base/abc.py): the generic tag store.
The Python `_flags_store` is `None` until first use, then a dict from
namespace to a dict from flag name to value. -/
structure Flagable where
  flags_store : Option (List (String × List (String × PyVal)))
deriving Repr

/-- Embeds Flagable.mark: add the flag `flag_name` under `namespace`;
raises TryFlagFailed (modelled as the error branch, carrying the message)
when the (namespace, flag name) pair is already marked. -/
def Flagable.mark (f : Flagable) (namespc : String) (flag_name : String)
    (val : PyVal) : Except String Flagable :=
  let store := match f.flags_store with
    | none => []
    | some s => s
  let store := match dictGet store namespc with
    | none => dictSet store namespc []
    | some _ => store
  let flags := (dictGet store namespc).getD []
  if (dictGet flags flag_name).isSome then
    Except.error
      ("对象不可被重复标记。在命名空间 " ++ namespc ++ " 中名为 " ++ flag_name
        ++ " 的标记已存在")
  else
    Except.ok ⟨some (dictSet store namespc (dictSet flags flag_name val))⟩

/-- Embeds Flagable.flag_check: whether the object carries the given flag.
Python compares `flag is val` when the queried `val` is `None` (identity
with the None singleton) and `flag == val` otherwise; on the PyVal model
both are structural equality against the respective value. -/
def Flagable.flag_check (f : Flagable) (namespc : String) (flag_name : String)
    (val : PyVal) : Bool :=
  match f.flags_store with
  | none => false
  | some store =>
    match dictGet store namespc with
    | none => false
    | some flags =>
      match dictGet flags flag_name with
      | none => false
      | some flag => if val = PyVal.pnone then flag = PyVal.pnone else flag = val

/-- Convenience read of the stored value of a flag, used only to state
theorems (not part of the source). -/
def Flagable.getFlag (f : Flagable) (namespc : String) (flag_name : String) :
    Option PyVal :=
  match f.flags_store with
  | none => none
  | some store =>
    match dictGet store namespc with
    | none => none
    | some flags => dictGet flags flag_name

/-- Embeds a Python exception as seen by the dispatcher's except-clause:
its class name, its str() message, and the stripped traceback text. -/
structure Exn where
  name : String
  msg : String
  trace : String

/-- Embeds BotEvent (src/src/melobot/base/abc.py) to the extent the
dispatcher needs it: the variant tag `type` and the raw payload (modelled
by its textual form, which is what the dispatcher logs), plus the
inherited tag store. -/
structure BotEvent where
  type : String
  raw : String
  flags : Flagable

/-- Embeds ActionArgs: an operation type plus a parameter dict. -/
structure ActionArgs where
  type : String
  params : List (String × PyVal)

/-- Embeds BotAction.__init__ fields: response id (generated only when a
response is awaited), operation type and params copied from the
ActionArgs, the optional trigger event, and the ready flag. -/
structure BotAction where
  resp_id : Option String
  type : String
  params : List (String × PyVal)
  trigger : Option BotEvent
  ready : Bool

/-- Embeds BotAction.__init__ itself. -/
def BotAction.make (action_args : ActionArgs) (resp_id : Option String)
    (triggerEvent : Option BotEvent) (ready : Bool) : BotAction :=
  { resp_id := resp_id
    type := action_args.type
    params := action_args.params
    trigger := triggerEvent
    ready := ready }

/-- Value of one entry of the dict produced by BotAction.extract: the
"action" and "echo" entries hold strings, the "params" entry holds the
parameter dict. -/
inductive ActionVal where
  | avStr (s : String) : ActionVal
  | avDict (d : List (String × PyVal)) : ActionVal
deriving DecidableEq, Repr

/-- Python truthiness of an Optional[str]: None and the empty string are
falsy, any other string is truthy. -/
def pyTruthyStrOpt : Option String → Bool
  | none => false
  | some s => !(s == "")

/-- Embeds BotAction.extract: build the dict with the "action" and
"params" keys, then add "echo" when `self.resp_id` is truthy. -/
def BotAction.extract (a : BotAction) : List (String × ActionVal) :=
  let obj := [("action", ActionVal.avStr a.type), ("params", ActionVal.avDict a.params)]
  match a.resp_id with
  | none => obj
  | some s => if s == "" then obj else obj ++ [("echo", ActionVal.avStr s)]

/-- The keys of an extracted action dict, in order. -/
def extractKeys (a : BotAction) : List String :=
  a.extract.map Prod.fst

/-- Embeds LogicMode (referenced from src/src/melobot/base/abc.py; the
enum itself lives in base/typing.py, outside the provided sources — only
the constructor names used by the source are needed here). -/
inductive LogicMode where
  | AND : LogicMode
  | OR : LogicMode
  | NOT : LogicMode
  | XOR : LogicMode
deriving DecidableEq, Repr

/-- Embeds the BotChecker class hierarchy as a tree: a leaf is any
concrete BotChecker subclass (identified by an opaque id), a wrapped node
is a WrappedChecker. Both levels carry the ok_cb and fail_cb slots of the
BotChecker base; callbacks are opaque references modelled by Nat, since
only reference identity matters to the claims. WrappedChecker stores a
required first child and an Optional second child. -/
inductive Checker where
  | leaf (id : Nat) (ok_cb fail_cb : Option Nat) : Checker
  | wrapped (mode : LogicMode) (ok_cb fail_cb : Option Nat)
      (c1 : Checker) (c2 : Option Checker) : Checker

/-- Embeds WrappedChecker.__init__: `super().__init__()` leaves both
callback slots at None, then mode and the two children are stored. The
Except type records that Python construction could in principle raise;
the source performs no validation, so the result is always ok. -/
def WrappedChecker.init (mode : LogicMode) (checker1 : Checker)
    (checker2 : Option Checker) : Except String Checker :=
  Except.ok (Checker.wrapped mode none none checker1 checker2)

/-- An operand of a checker combinator: either an actual BotChecker or
some other Python object, carried by its repr text (what the f-string
error message interpolates). -/
inductive CheckerOperand where
  | chk (c : Checker) : CheckerOperand
  | other (valueRepr : String) : CheckerOperand

/-- Error message of BotCheckerError raised by the checker combinators. -/
def checkerCombineErr (valueRepr : String) : String :=
  "联合检查器定义时出现了非检查器对象，其值为：" ++ valueRepr

/-- Embeds BotChecker.__and__. -/
def Checker.and_ (self : Checker) (other : CheckerOperand) : Except String Checker :=
  match other with
  | CheckerOperand.other r => Except.error (checkerCombineErr r)
  | CheckerOperand.chk c => WrappedChecker.init LogicMode.AND self (some c)

/-- Embeds BotChecker.__or__. -/
def Checker.or_ (self : Checker) (other : CheckerOperand) : Except String Checker :=
  match other with
  | CheckerOperand.other r => Except.error (checkerCombineErr r)
  | CheckerOperand.chk c => WrappedChecker.init LogicMode.OR self (some c)

/-- Embeds BotChecker.__xor__. -/
def Checker.xor_ (self : Checker) (other : CheckerOperand) : Except String Checker :=
  match other with
  | CheckerOperand.other r => Except.error (checkerCombineErr r)
  | CheckerOperand.chk c => WrappedChecker.init LogicMode.XOR self (some c)

/-- Embeds BotChecker.__invert__: WrappedChecker(LogicMode.NOT, self)
with the second child defaulted to None. -/
def Checker.invert (self : Checker) : Except String Checker :=
  WrappedChecker.init LogicMode.NOT self none

/-- The ok_cb slot of a checker node (leaf or wrapped). -/
def Checker.okSlot : Checker → Option Nat
  | Checker.leaf _ ok _ => ok
  | Checker.wrapped _ ok _ _ _ => ok

/-- The fail_cb slot of a checker node (leaf or wrapped). -/
def Checker.failSlot : Checker → Option Nat
  | Checker.leaf _ _ fl => fl
  | Checker.wrapped _ _ fl _ _ => fl

/-- Embeds BotChecker._fill_ok_cb and WrappedChecker._fill_ok_cb.
Mutation with a possible exception is modelled by returning the object
state after every assignment executed before the raise, together with the
message of the BotCheckerError when one was raised: the base method
checks the own slot then assigns; the wrapped override runs the base
method first, then recursively fills checker1, then checker2 when it is
not None. -/
def fill_ok_cb : Checker → Nat → Checker × Option String
  | Checker.leaf i ok fl, _cb =>
    match ok with
    | some old =>
      (Checker.leaf i (some old) fl,
        some ("ok_cb 回调已经被初始化，值为：" ++ toString old))
    | none => (Checker.leaf i (some _cb) fl, none)
  | Checker.wrapped m ok fl c1 c2, _cb =>
    match ok with
    | some old =>
      (Checker.wrapped m (some old) fl c1 c2,
        some ("ok_cb 回调已经被初始化，值为：" ++ toString old))
    | none =>
      let r1 := fill_ok_cb c1 _cb
      match r1.2 with
      | some e => (Checker.wrapped m (some _cb) fl r1.1 c2, some e)
      | none =>
        match c2 with
        | none => (Checker.wrapped m (some _cb) fl r1.1 none, none)
        | some cc =>
          let r2 := fill_ok_cb cc _cb
          (Checker.wrapped m (some _cb) fl r1.1 (some r2.1), r2.2)

/-- Embeds BotChecker._fill_fail_cb and WrappedChecker._fill_fail_cb,
symmetric to fill_ok_cb. -/
def fill_fail_cb : Checker → Nat → Checker × Option String
  | Checker.leaf i ok fl, _cb =>
    match fl with
    | some old =>
      (Checker.leaf i ok (some old),
        some ("fail_cb 回调已经被初始化，值为：" ++ toString old))
    | none => (Checker.leaf i ok (some _cb), none)
  | Checker.wrapped m ok fl c1 c2, _cb =>
    match fl with
    | some old =>
      (Checker.wrapped m ok (some old) c1 c2,
        some ("fail_cb 回调已经被初始化，值为：" ++ toString old))
    | none =>
      let r1 := fill_fail_cb c1 _cb
      match r1.2 with
      | some e => (Checker.wrapped m ok (some _cb) r1.1 c2, some e)
      | none =>
        match c2 with
        | none => (Checker.wrapped m ok (some _cb) r1.1 none, none)
        | some cc =>
          let r2 := fill_fail_cb cc _cb
          (Checker.wrapped m ok (some _cb) r1.1 (some r2.1), r2.2)

/-- Decides that no node of the checker tree has its ok_cb slot filled. -/
def Checker.allOkEmpty : Checker → Bool
  | Checker.leaf _ ok _ => ok.isNone
  | Checker.wrapped _ ok _ c1 c2 =>
    ok.isNone && c1.allOkEmpty &&
      (match c2 with | none => true | some cc => cc.allOkEmpty)

/-- Decides that every node of the checker tree (the root, every wrapped
descendant, every leaf) holds exactly the callback reference cb in its
ok_cb slot. -/
def Checker.allOkIs (cb : Nat) : Checker → Bool
  | Checker.leaf _ ok _ => ok == some cb
  | Checker.wrapped _ ok _ c1 c2 =>
    ok == some cb && c1.allOkIs cb &&
      (match c2 with | none => true | some cc => cc.allOkIs cb)

/-- Decides that no node of the checker tree has its fail_cb slot filled. -/
def Checker.allFailEmpty : Checker → Bool
  | Checker.leaf _ _ fl => fl.isNone
  | Checker.wrapped _ _ fl c1 c2 =>
    fl.isNone && c1.allFailEmpty &&
      (match c2 with | none => true | some cc => cc.allFailEmpty)

/-- Decides that every node of the checker tree holds exactly the
callback reference cb in its fail_cb slot. -/
def Checker.allFailIs (cb : Nat) : Checker → Bool
  | Checker.leaf _ _ fl => fl == some cb
  | Checker.wrapped _ _ fl c1 c2 =>
    fl == some cb && c1.allFailIs cb &&
      (match c2 with | none => true | some cc => cc.allFailIs cb)

/-- Embeds the BotMatcher class hierarchy, same Leaf/Composite shape as
Checker but with no callback slots. -/
inductive Matcher where
  | leaf (id : Nat) : Matcher
  | wrapped (mode : LogicMode) (m1 : Matcher) (m2 : Option Matcher) : Matcher

/-- Embeds WrappedMatcher.__init__: stores mode and children with no
validation, so it never raises. -/
def WrappedMatcher.init (mode : LogicMode) (matcher1 : Matcher)
    (matcher2 : Option Matcher) : Except String Matcher :=
  Except.ok (Matcher.wrapped mode matcher1 matcher2)

/-- An operand of a matcher combinator: an actual BotMatcher or some
other Python object carried by its repr text. -/
inductive MatcherOperand where
  | mtc (m : Matcher) : MatcherOperand
  | other (valueRepr : String) : MatcherOperand

/-- Error message of BotMatcherError raised by the matcher combinators. -/
def matcherCombineErr (valueRepr : String) : String :=
  "联合匹配器定义时出现了非匹配器对象，其值为：" ++ valueRepr

/-- Embeds BotMatcher.__and__. -/
def Matcher.and_ (self : Matcher) (other : MatcherOperand) : Except String Matcher :=
  match other with
  | MatcherOperand.other r => Except.error (matcherCombineErr r)
  | MatcherOperand.mtc m => WrappedMatcher.init LogicMode.AND self (some m)

/-- Embeds BotMatcher.__or__. -/
def Matcher.or_ (self : Matcher) (other : MatcherOperand) : Except String Matcher :=
  match other with
  | MatcherOperand.other r => Except.error (matcherCombineErr r)
  | MatcherOperand.mtc m => WrappedMatcher.init LogicMode.OR self (some m)

/-- Embeds BotMatcher.__xor__. -/
def Matcher.xor_ (self : Matcher) (other : MatcherOperand) : Except String Matcher :=
  match other with
  | MatcherOperand.other r => Except.error (matcherCombineErr r)
  | MatcherOperand.mtc m => WrappedMatcher.init LogicMode.XOR self (some m)

/-- Embeds BotMatcher.__invert__. -/
def Matcher.invert (self : Matcher) : Except String Matcher :=
  WrappedMatcher.init LogicMode.NOT self none

/-- Family of an event handler: which isinstance branch of
BotDispatcher.bind it satisfies (MsgEventHandler, ReqEventHandler,
NoticeEventHandler) or none of them. -/
inductive HandlerKind where
  | msg : HandlerKind
  | req : HandlerKind
  | notice : HandlerKind
  | otherKind : HandlerKind
deriving DecidableEq, Repr

/-- Embeds an IEventHandler as the dispatcher sees it: its family, its
priority level, its set_block flag, and its evoke coroutine, modelled as
a function from the event to either a raised exception or the boolean
saying whether the handler chose to process the event. -/
structure Handler where
  kind : HandlerKind
  priority : Int
  set_block : Bool
  evoke : BotEvent → Except Exn Bool

/-- Modelled from the spec: PriorityLevel.MIN.value, the minimum priority
level of the PriorityLevel enum; the enum itself lives outside the
provided sources. Dispatch initialises its floor to this value. -/
def PriorityLevel_MIN : Int := 0

/-- What happened to one handler during one dispatch loop: it was skipped
because its priority was below the floor, or its evoke was invoked and
returned a boolean, or its evoke was invoked and raised. -/
inductive StepKind where
  | skipped : StepKind
  | invoked (result : Bool) : StepKind
  | raised (ex : Exn) : StepKind

/-- Trace entry of the dispatch loop: the handler considered, the value
of permit_priority (the floor) at the moment it was considered, and what
happened. -/
structure Step where
  handler : Handler
  floor : Int
  kind : StepKind

/-- Whether this step invoked the handler's evoke (successfully or not). -/
def Step.isInvoked (s : Step) : Prop :=
  s.kind ≠ StepKind.skipped

/-- Embeds the for-loop of BotDispatcher.dispatch
(src/melobot/core/dispatcher.py lines 52-63), instrumented with a trace:
for each handler in order, skip it when its priority is below
permit_priority; otherwise await evoke; on False continue unchanged; on
True raise the floor to the handler's priority when set_block holds and
the priority is strictly greater; a raised exception ends the loop and is
reported to the surrounding try. -/
def dispatchLoop (event : BotEvent) :
    List Handler → Int → List Step × Option Exn
  | [], _ => ([], none)
  | h :: rest, permit_priority =>
    if h.priority < permit_priority then
      let r := dispatchLoop event rest permit_priority
      (⟨h, permit_priority, StepKind.skipped⟩ :: r.1, r.2)
    else
      match h.evoke event with
      | Except.error ex =>
        ([⟨h, permit_priority, StepKind.raised ex⟩], some ex)
      | Except.ok false =>
        let r := dispatchLoop event rest permit_priority
        (⟨h, permit_priority, StepKind.invoked false⟩ :: r.1, r.2)
      | Except.ok true =>
        let permit2 :=
          if h.set_block ∧ h.priority > permit_priority then h.priority
          else permit_priority
        let r := dispatchLoop event rest permit2
        (⟨h, permit_priority, StepKind.invoked true⟩ :: r.1, r.2)

/-- Embeds `sorted(handlers, key=lambda x: x.priority, reverse=True)`:
a stable sort, descending by priority (equal priorities keep their
relative order, as Python's sorted guarantees). -/
def sortByPriority (hs : List Handler) : List Handler :=
  hs.mergeSort (fun a b => decide (b.priority ≤ a.priority))

/-- Embeds the BotDispatcher state: the per-event-type handler dict whose
keys are fixed to message, request and notice at construction, and the
ready signal (asyncio.Event: set once, never cleared by this class). The
logger is not part of the state; dispatch returns the entries it logged. -/
structure BotDispatcher where
  message : List Handler
  request : List Handler
  notice : List Handler
  ready : Bool

/-- Embeds BotDispatcher.__init__ with empty handler lists and the ready
signal unset. -/
def BotDispatcher.init : BotDispatcher :=
  { message := [], request := [], notice := [], ready := false }

/-- Embeds BotDispatcher.bind: append each handler to the list of its
family (handlers matching none of the three isinstance tests are
dropped), sort every per-type list by priority descending, and set the
ready signal. -/
def BotDispatcher.bind (d : BotDispatcher) (all_handlers : List Handler) :
    BotDispatcher :=
  let msg := d.message ++ all_handlers.filter (fun h => h.kind == HandlerKind.msg)
  let req := d.request ++ all_handlers.filter (fun h => h.kind == HandlerKind.req)
  let ntc := d.notice ++ all_handlers.filter (fun h => h.kind == HandlerKind.notice)
  { message := sortByPriority msg
    request := sortByPriority req
    notice := sortByPriority ntc
    ready := true }

/-- Embeds the dict indexing `self._handlers[event.type]`: the three keys
present since __init__; any other type raises KeyError (the none case). -/
def BotDispatcher.handlersFor (d : BotDispatcher) (ty : String) :
    Option (List Handler) :=
  if ty = "message" then some d.message
  else if ty = "request" then some d.request
  else if ty = "notice" then some d.notice
  else none

/-- An entry the dispatcher writes to its logger, at error or debug level. -/
inductive LogEntry where
  | error (text : String) : LogEntry
  | debug (text : String) : LogEntry
deriving DecidableEq, Repr

/-- Embeds the except-clause of BotDispatcher.dispatch: one error entry
naming the exception class and message, one debug entry with the raw
payload of the offending event, one debug entry with the traceback. -/
def dispatchErrLogs (ex : Exn) (event : BotEvent) : List LogEntry :=
  [LogEntry.error ("bot dispatcher 抛出异常：[" ++ ex.name ++ "] " ++ ex.msg),
   LogEntry.debug ("异常点的事件记录为：" ++ event.raw),
   LogEntry.debug ("异常回溯栈：\n" ++ ex.trace)]

/-- Exception raised by `self._handlers[event.type]` when the type is not
a key of the dict. The traceback text is a runtime artifact and is
modelled as empty. -/
def keyErrorExn (ty : String) : Exn :=
  { name := "KeyError", msg := "'" ++ ty ++ "'", trace := "" }

/-- Embeds BotDispatcher.dispatch after its `await self._ready_signal.wait()`
(for a Ready dispatcher the wait returns immediately): the whole body runs
under try; the dict lookup or any evoke may raise; a raised exception is
logged and swallowed, so dispatch always returns — its result is the trace
of handler steps plus the log entries written. -/
def BotDispatcher.dispatch (d : BotDispatcher) (event : BotEvent) :
    List Step × List LogEntry :=
  match d.handlersFor event.type with
  | none => ([], dispatchErrLogs (keyErrorExn event.type) event)
  | some hs =>
    match dispatchLoop event hs PriorityLevel_MIN with
    | (steps, none) => (steps, [])
    | (steps, some ex) => (steps, dispatchErrLogs ex event)

theorem lookup_overwrite_self (d : List (String × α)) (k : String) (v : α) :
    (List.lookup k d).isSome = true →
      List.lookup k (d.map (fun p => bif p.1 == k then (k, v) else p)) = some v := by
  induction d with
  | nil => intro hs; simp [List.lookup] at hs
  | cons p rest ih =>
    intro hs
    obtain ⟨k1, v1⟩ := p
    cases hb : (k1 == k) with
    | true => simp [List.lookup, hb]
    | false =>
      have hb2 : (k == k1) = false := by
        have hne : k ≠ k1 := by
          intro he
          subst he
          simp at hb
        simp [hne]
      have hs2 : (List.lookup k rest).isSome = true := by
        simpa [List.lookup, hb2] using hs
      simp [List.lookup, hb, hb2, ih hs2]

theorem lookup_append_one_self (d : List (String × α)) (k : String) (v : α) :
    (List.lookup k d).isSome = false → List.lookup k (d ++ [(k, v)]) = some v := by
  induction d with
  | nil => intro _; simp [List.lookup]
  | cons p rest ih =>
    intro hs
    obtain ⟨k1, v1⟩ := p
    cases hb : (k == k1) with
    | true => simp [List.lookup, hb] at hs
    | false =>
      have hs2 : (List.lookup k rest).isSome = false := by
        simpa [List.lookup, hb] using hs
      simp [List.lookup, hb, ih hs2]

theorem dictGet_dictSet_self (d : List (String × α)) (k : String) (v : α) :
    dictGet (dictSet d k v) k = some v := by
  unfold dictGet dictSet
  cases hs : (List.lookup k d).isSome with
  | true =>
    simp only [hs, if_true]
    exact lookup_overwrite_self d k v hs
  | false =>
    simp only [hs, Bool.false_eq_true, if_false]
    exact lookup_append_one_self d k v hs

theorem lookup_overwrite_ne (rest : List (String × α)) (k k2 : String) (v : α)
    (h : k ≠ k2) :
    List.lookup k2 (rest.map (fun p => bif p.1 == k then (k, v) else p))
      = List.lookup k2 rest := by
  have hbe : (k2 == k) = false := by simp [Ne.symm h]
  induction rest with
  | nil => rfl
  | cons p rest ih =>
    obtain ⟨k1, v1⟩ := p
    cases hb : (k1 == k) with
    | true =>
      have hk1 : k1 = k := by simpa using hb
      subst hk1
      simp [List.lookup, hb, hbe, ih]
    | false =>
      cases hbeq : (k2 == k1) with
      | true => simp [List.lookup, hb, hbeq]
      | false => simp [List.lookup, hb, hbeq, ih]

theorem lookup_append_one_ne (d : List (String × α)) (k k2 : String) (v : α)
    (hbe : (k2 == k) = false) :
    List.lookup k2 (d ++ [(k, v)]) = List.lookup k2 d := by
  induction d with
  | nil => simp [List.lookup, hbe]
  | cons p rest ih =>
    obtain ⟨k1, v1⟩ := p
    cases hbeq : (k2 == k1) with
    | true => simp [List.lookup, hbeq]
    | false => simp [List.lookup, hbeq, ih]

theorem dictGet_dictSet_ne (d : List (String × α)) (k k2 : String) (v : α)
    (h : k ≠ k2) : dictGet (dictSet d k v) k2 = dictGet d k2 := by
  have hbe : (k2 == k) = false := by simp [Ne.symm h]
  unfold dictGet dictSet
  cases hs : (List.lookup k d).isSome with
  | true =>
    simp only [hs, if_true]
    exact lookup_overwrite_ne d k k2 v h
  | false =>
    simp only [hs, Bool.false_eq_true, if_false]
    exact lookup_append_one_ne d k k2 v hbe

/-- Message of the TryFlagFailed error raised on a duplicate tag. -/
def dupTagMsg (namespc flag_name : String) : String :=
  "对象不可被重复标记。在命名空间 " ++ namespc ++ " 中名为 " ++ flag_name
    ++ " 的标记已存在"

/-- C6: on any tag-store object (every Event carries one), setting a tag
whose (namespace, flag-name) pair is already present raises the
duplicate-tag error TryFlagFailed, and setting a pair that differs from
all previously set pairs always succeeds and stores the given value. -/
theorem mark_tag_spec (f : Flagable) (ns fname : String) (val : PyVal) :
    ((f.getFlag ns fname).isSome = true →
      f.mark ns fname val = Except.error (dupTagMsg ns fname)) ∧
    ((f.getFlag ns fname).isSome = false →
      (f.mark ns fname val).map (fun g => g.getFlag ns fname)
        = Except.ok (some val)) := by
  obtain ⟨fs⟩ := f
  cases fs with
  | none =>
    constructor
    · intro h
      simp [Flagable.getFlag] at h
    · intro _
      simp [Flagable.mark, Flagable.getFlag, Except.map, dictGet, dictSet,
        List.lookup, dupTagMsg]
  | some store =>
    cases hns : dictGet store ns with
    | none =>
      constructor
      · intro h
        simp [Flagable.getFlag, hns] at h
      · intro _
        have h0 : dictGet ([] : List (String × PyVal)) fname = none := rfl
        have h1 : dictGet (dictSet store ns ([] : List (String × PyVal))) ns
            = some [] := dictGet_dictSet_self store ns []
        have h3 : dictGet (dictSet ([] : List (String × PyVal)) fname val) fname
            = some val := dictGet_dictSet_self [] fname val
        have h2 : dictGet
            (dictSet (dictSet store ns ([] : List (String × PyVal))) ns
              (dictSet ([] : List (String × PyVal)) fname val)) ns
            = some (dictSet ([] : List (String × PyVal)) fname val) :=
          dictGet_dictSet_self _ ns _
        simp [Flagable.mark, Flagable.getFlag, Except.map, hns, h0, h1, h2, h3]
    | some flags =>
      cases hfn : dictGet flags fname with
      | none =>
        constructor
        · intro h
          simp [Flagable.getFlag, hns, hfn] at h
        · intro _
          have h3 : dictGet (dictSet flags fname val) fname = some val :=
            dictGet_dictSet_self flags fname val
          have h2 : dictGet (dictSet store ns (dictSet flags fname val)) ns
              = some (dictSet flags fname val) := dictGet_dictSet_self _ ns _
          simp [Flagable.mark, Flagable.getFlag, Except.map, hns, hfn, h2, h3]
      | some v0 =>
        constructor
        · intro _
          simp [Flagable.mark, Flagable.getFlag, hns, hfn, dupTagMsg]
        · intro h
          simp [Flagable.getFlag, hns, hfn] at h

/-- Tag store with two flags set, shared by witnesses of the tag claims. -/
def flagWitnessObj : Flagable :=
  ⟨some [("ns", [("seen", PyVal.pnone), ("n", PyVal.pint 7)])]⟩

/-- Witness for mark_tag_spec: a duplicate mark on a present pair errors,
a mark on a fresh store succeeds and stores the value. -/
theorem mark_tag_spec_witness :
    flagWitnessObj.mark "ns" "seen" (PyVal.pint 1)
        = Except.error (dupTagMsg "ns" "seen") ∧
    ((⟨none⟩ : Flagable).mark "ns" "fresh" (PyVal.pint 2)).map
        (fun g => g.getFlag "ns" "fresh") = Except.ok (some (PyVal.pint 2)) :=
  ⟨(mark_tag_spec flagWitnessObj "ns" "seen" (PyVal.pint 1)).1 (by rfl),
   (mark_tag_spec ⟨none⟩ "ns" "fresh" (PyVal.pint 2)).2 (by rfl)⟩

/-- C7: the tag check returns false whenever the namespace or flag name
was never set; on a stored flag it returns true exactly on value equality
when the queried value is not None, and exactly on the flag being a bare
None presence marker when the queried value is None. The check is a pure
function: it cannot raise and leaves the store untouched. -/
theorem flag_check_spec (f : Flagable) (ns fname : String) (val : PyVal) :
    (f.getFlag ns fname = none → f.flag_check ns fname val = false) ∧
    (∀ v, f.getFlag ns fname = some v → val ≠ PyVal.pnone →
      (f.flag_check ns fname val = true ↔ v = val)) ∧
    (∀ v, f.getFlag ns fname = some v →
      (f.flag_check ns fname PyVal.pnone = true ↔ v = PyVal.pnone)) := by
  obtain ⟨fs⟩ := f
  cases fs with
  | none =>
    refine ⟨fun _ => rfl, ?_, ?_⟩ <;>
      · intro v hv
        simp [Flagable.getFlag] at hv
  | some store =>
    cases hns : dictGet store ns with
    | none =>
      refine ⟨fun _ => ?_, ?_, ?_⟩
      · simp [Flagable.flag_check, hns]
      · intro v hv
        simp [Flagable.getFlag, hns] at hv
      · intro v hv
        simp [Flagable.getFlag, hns] at hv
    | some flags =>
      cases hfn : dictGet flags fname with
      | none =>
        refine ⟨fun _ => ?_, ?_, ?_⟩
        · simp [Flagable.flag_check, hns, hfn]
        · intro v hv
          simp [Flagable.getFlag, hns, hfn] at hv
        · intro v hv
          simp [Flagable.getFlag, hns, hfn] at hv
      | some v0 =>
        refine ⟨?_, ?_, ?_⟩
        · intro h
          simp [Flagable.getFlag, hns, hfn] at h
        · intro v hv hval
          have hv0 : v0 = v := by
            simpa [Flagable.getFlag, hns, hfn] using hv
          subst hv0
          simp [Flagable.flag_check, hns, hfn, hval]
        · intro v hv
          have hv0 : v0 = v := by
            simpa [Flagable.getFlag, hns, hfn] using hv
          subst hv0
          simp [Flagable.flag_check, hns, hfn]

/-- Witness for flag_check_spec: a miss yields false, a value hit is an
equality test, a None query tests bare presence. -/
theorem flag_check_spec_witness :
    flagWitnessObj.flag_check "other" "seen" PyVal.pnone = false ∧
    (flagWitnessObj.flag_check "ns" "n" (PyVal.pint 7) = true
      ↔ PyVal.pint 7 = PyVal.pint 7) ∧
    (flagWitnessObj.flag_check "ns" "seen" PyVal.pnone = true
      ↔ PyVal.pnone = PyVal.pnone) :=
  ⟨(flag_check_spec flagWitnessObj "other" "seen" PyVal.pnone).1 (by rfl),
   (flag_check_spec flagWitnessObj "ns" "n" (PyVal.pint 7)).2.1
      (PyVal.pint 7) (by rfl) (by decide),
   (flag_check_spec flagWitnessObj "ns" "seen" PyVal.pnone).2.2
      PyVal.pnone (by rfl)⟩

/-- The concrete send_private_msg action of the serialization claim,
built with no response-correlation id. -/
def sendPrivateMsgAction : BotAction :=
  BotAction.make
    ⟨"send_private_msg", [("user_id", PyVal.pint 123), ("message", PyVal.pstr "hi")]⟩
    none none false

/-- An action whose response id was supplied but is the empty string:
well-formed per the constructor, yet falsy for the truthiness test that
guards the echo key. -/
def emptyEchoAction : BotAction :=
  BotAction.make
    ⟨"send_private_msg", [("user_id", PyVal.pint 123), ("message", PyVal.pstr "hi")]⟩
    (some "") none false

/-- C8 counterexample: an Action carrying a (requested) correlation id, the
empty string, whose serialization nevertheless has no echo key — extract
guards the echo key with Python truthiness of resp_id, not with its
presence. -/
theorem extract_echo_counterexample :
    emptyEchoAction.resp_id.isSome = true ∧
    ("echo" ∈ extractKeys emptyEchoAction) = False := by
  constructor
  · rfl
  · simp [extractKeys, emptyEchoAction, BotAction.extract, BotAction.make]

/-- C8 amended: extract yields exactly the action/params structure, the
echo key is appended exactly when resp_id is present and non-empty
(Python truthiness), and the send_private_msg example with no correlation
id serializes to exactly the claimed dict with no echo key; extract is a
total function, so serialization never fails. -/
theorem extract_spec (a : BotAction) :
    (pyTruthyStrOpt a.resp_id = false →
      a.extract = [("action", ActionVal.avStr a.type),
        ("params", ActionVal.avDict a.params)]) ∧
    (∀ s, a.resp_id = some s → s ≠ "" →
      a.extract = [("action", ActionVal.avStr a.type),
        ("params", ActionVal.avDict a.params), ("echo", ActionVal.avStr s)]) ∧
    sendPrivateMsgAction.extract
      = [("action", ActionVal.avStr "send_private_msg"),
         ("params", ActionVal.avDict
            [("user_id", PyVal.pint 123), ("message", PyVal.pstr "hi")]),] := by
  refine ⟨?_, ?_, by rfl⟩
  · intro hfal
    cases hr : a.resp_id with
    | none => simp [BotAction.extract, hr]
    | some s =>
      have hs : s = "" := by
        simpa [pyTruthyStrOpt, hr] using hfal
      subst hs
      simp [BotAction.extract, hr]
  · intro s hr hs
    simp [BotAction.extract, hr, hs]

/-- Witness for extract_spec: both guard shapes evaluated on concrete
actions. -/
theorem extract_spec_witness :
    emptyEchoAction.extract
      = [("action", ActionVal.avStr "send_private_msg"),
         ("params", ActionVal.avDict
            [("user_id", PyVal.pint 123), ("message", PyVal.pstr "hi")])] ∧
    (BotAction.make ⟨"get_status", []⟩ (some "id01") none false).extract
      = [("action", ActionVal.avStr "get_status"),
         ("params", ActionVal.avDict []), ("echo", ActionVal.avStr "id01")] :=
  ⟨(extract_spec emptyEchoAction).1 (by rfl),
   (extract_spec (BotAction.make ⟨"get_status", []⟩ (some "id01") none false)).2.1
      "id01" (by rfl) (by decide)⟩

/-- C9: combining a checker or matcher with a non-predicate operand via
AND, OR or XOR raises the family's type error, whose message embeds the
repr of the offending value, and no composite is constructed (the result
is the error, not a wrapped node); a predicate operand constructs the
composite. -/
theorem combine_type_error_spec (c : Checker) (m : Matcher) (r : String) :
    c.and_ (CheckerOperand.other r) = Except.error (checkerCombineErr r) ∧
    c.or_ (CheckerOperand.other r) = Except.error (checkerCombineErr r) ∧
    c.xor_ (CheckerOperand.other r) = Except.error (checkerCombineErr r) ∧
    m.and_ (MatcherOperand.other r) = Except.error (matcherCombineErr r) ∧
    m.or_ (MatcherOperand.other r) = Except.error (matcherCombineErr r) ∧
    m.xor_ (MatcherOperand.other r) = Except.error (matcherCombineErr r) ∧
    (∃ pre, checkerCombineErr r = pre ++ r) ∧
    (∃ pre, matcherCombineErr r = pre ++ r) ∧
    (∀ c2, c.and_ (CheckerOperand.chk c2)
      = Except.ok (Checker.wrapped LogicMode.AND none none c (some c2))) ∧
    (∀ m2, m.xor_ (MatcherOperand.mtc m2)
      = Except.ok (Matcher.wrapped LogicMode.XOR m (some m2))) := by
  refine ⟨rfl, rfl, rfl, rfl, rfl, rfl,
    ⟨"联合检查器定义时出现了非检查器对象，其值为：", rfl⟩,
    ⟨"联合匹配器定义时出现了非匹配器对象，其值为：", rfl⟩,
    fun _ => rfl, fun _ => rfl⟩

/-- Two leaf checkers and two leaf matchers used as concrete children. -/
def leafC0 : Checker := Checker.leaf 0 none none

def leafC1 : Checker := Checker.leaf 1 none none

def leafM0 : Matcher := Matcher.leaf 0

def leafM1 : Matcher := Matcher.leaf 1

/-- C5 counterexample: constructing a NOT composite with a second child
does not fail fast — WrappedChecker and WrappedMatcher construction
performs no validation, succeeds, and the composite stores both
children. -/
theorem not_two_children_counterexample :
    WrappedChecker.init LogicMode.NOT leafC0 (some leafC1)
      = Except.ok (Checker.wrapped LogicMode.NOT none none leafC0 (some leafC1)) ∧
    WrappedMatcher.init LogicMode.NOT leafM0 (some leafM1)
      = Except.ok (Matcher.wrapped LogicMode.NOT leafM0 (some leafM1)) :=
  ⟨rfl, rfl⟩

/-- C5 amended: composite construction never validates its operands — it
stores mode and children as given and never raises, in NOT mode as in any
other — while the public negation operator, the one combinator that
produces NOT composites, always constructs them with exactly one child
(the second child is None). -/
theorem wrapped_init_spec (mode : LogicMode) (c1 : Checker) (c2 : Option Checker)
    (m1 : Matcher) (m2 : Option Matcher) :
    WrappedChecker.init mode c1 c2
      = Except.ok (Checker.wrapped mode none none c1 c2) ∧
    WrappedMatcher.init mode m1 m2
      = Except.ok (Matcher.wrapped mode m1 m2) ∧
    c1.invert = Except.ok (Checker.wrapped LogicMode.NOT none none c1 none) ∧
    m1.invert = Except.ok (Matcher.wrapped LogicMode.NOT m1 none) :=
  ⟨rfl, rfl, rfl, rfl⟩

/-- The checker tree with every ok_cb slot (root, wrapped descendants,
leaves) set to the reference cb. -/
def Checker.withAllOk (cb : Nat) : Checker → Checker
  | Checker.leaf i _ fl => Checker.leaf i (some cb) fl
  | Checker.wrapped m _ fl c1 none =>
      Checker.wrapped m (some cb) fl (c1.withAllOk cb) none
  | Checker.wrapped m _ fl c1 (some cc) =>
      Checker.wrapped m (some cb) fl (c1.withAllOk cb) (some (cc.withAllOk cb))

/-- The checker tree with every fail_cb slot set to the reference cb. -/
def Checker.withAllFail (cb : Nat) : Checker → Checker
  | Checker.leaf i ok _ => Checker.leaf i ok (some cb)
  | Checker.wrapped m ok _ c1 none =>
      Checker.wrapped m ok (some cb) (c1.withAllFail cb) none
  | Checker.wrapped m ok _ c1 (some cc) =>
      Checker.wrapped m ok (some cb) (c1.withAllFail cb) (some (cc.withAllFail cb))

theorem withAllOk_allOkIs : ∀ (cb : Nat) (c : Checker),
    (c.withAllOk cb).allOkIs cb = true
  | _, Checker.leaf _ _ _ => by
      simp [Checker.withAllOk, Checker.allOkIs]
  | cb, Checker.wrapped _ _ _ c1 none => by
      simp [Checker.withAllOk, Checker.allOkIs, withAllOk_allOkIs cb c1]
  | cb, Checker.wrapped _ _ _ c1 (some cc) => by
      simp [Checker.withAllOk, Checker.allOkIs, withAllOk_allOkIs cb c1,
        withAllOk_allOkIs cb cc]

theorem withAllFail_allFailIs : ∀ (cb : Nat) (c : Checker),
    (c.withAllFail cb).allFailIs cb = true
  | _, Checker.leaf _ _ _ => by
      simp [Checker.withAllFail, Checker.allFailIs]
  | cb, Checker.wrapped _ _ _ c1 none => by
      simp [Checker.withAllFail, Checker.allFailIs, withAllFail_allFailIs cb c1]
  | cb, Checker.wrapped _ _ _ c1 (some cc) => by
      simp [Checker.withAllFail, Checker.allFailIs, withAllFail_allFailIs cb c1,
        withAllFail_allFailIs cb cc]

theorem fill_ok_cb_fresh : ∀ (c : Checker) (cb : Nat),
    c.allOkEmpty = true → fill_ok_cb c cb = (c.withAllOk cb, none)
  | Checker.leaf i none fl, cb => by
      intro _
      simp [fill_ok_cb, Checker.withAllOk]
  | Checker.leaf i (some old) fl, cb => by
      intro h
      simp [Checker.allOkEmpty] at h
  | Checker.wrapped m (some old) fl c1 c2, cb => by
      intro h
      cases c2 <;> simp [Checker.allOkEmpty] at h
  | Checker.wrapped m none fl c1 none, cb => by
      intro h
      simp only [Checker.allOkEmpty, Option.isNone_none, Bool.true_and,
        Bool.and_true] at h
      have h1 := fill_ok_cb_fresh c1 cb h
      simp [fill_ok_cb, h1, Checker.withAllOk]
  | Checker.wrapped m none fl c1 (some cc), cb => by
      intro h
      simp only [Checker.allOkEmpty, Option.isNone_none, Bool.true_and,
        Bool.and_eq_true] at h
      have h1 := fill_ok_cb_fresh c1 cb h.1
      have h2 := fill_ok_cb_fresh cc cb h.2
      simp [fill_ok_cb, h1, h2, Checker.withAllOk]

theorem fill_fail_cb_fresh : ∀ (c : Checker) (cb : Nat),
    c.allFailEmpty = true → fill_fail_cb c cb = (c.withAllFail cb, none)
  | Checker.leaf i ok none, cb => by
      intro _
      simp [fill_fail_cb, Checker.withAllFail]
  | Checker.leaf i ok (some old), cb => by
      intro h
      simp [Checker.allFailEmpty] at h
  | Checker.wrapped m ok (some old) c1 c2, cb => by
      intro h
      cases c2 <;> simp [Checker.allFailEmpty] at h
  | Checker.wrapped m ok none c1 none, cb => by
      intro h
      simp only [Checker.allFailEmpty, Option.isNone_none, Bool.true_and,
        Bool.and_true] at h
      have h1 := fill_fail_cb_fresh c1 cb h
      simp [fill_fail_cb, h1, Checker.withAllFail]
  | Checker.wrapped m ok none c1 (some cc), cb => by
      intro h
      simp only [Checker.allFailEmpty, Option.isNone_none, Bool.true_and,
        Bool.and_eq_true] at h
      have h1 := fill_fail_cb_fresh c1 cb h.1
      have h2 := fill_fail_cb_fresh cc cb h.2
      simp [fill_fail_cb, h1, h2, Checker.withAllFail]

theorem fill_ok_cb_dup (c : Checker) (cb : Nat) (h : c.okSlot.isSome = true) :
    (fill_ok_cb c cb).1 = c ∧ (fill_ok_cb c cb).2.isSome = true := by
  cases c with
  | leaf i ok fl =>
    cases ok with
    | none => simp [Checker.okSlot] at h
    | some old => simp [fill_ok_cb]
  | wrapped m ok fl c1 c2 =>
    cases ok with
    | none => simp [Checker.okSlot] at h
    | some old => simp [fill_ok_cb]

theorem fill_fail_cb_dup (c : Checker) (cb : Nat) (h : c.failSlot.isSome = true) :
    (fill_fail_cb c cb).1 = c ∧ (fill_fail_cb c cb).2.isSome = true := by
  cases c with
  | leaf i ok fl =>
    cases fl with
    | none => simp [Checker.failSlot] at h
    | some old => simp [fill_fail_cb]
  | wrapped m ok fl c1 c2 =>
    cases fl with
    | none => simp [Checker.failSlot] at h
    | some old => simp [fill_fail_cb]

/-- C4: filling the success (or failure) callback of a checker whose
slots are all still empty succeeds and stores the identical callback
reference in the composite's own slot and in every descendant down to the
leaves (the result is exactly the input tree with every slot set to cb);
on any checker, leaf or composite, whose own slot is already non-empty, a
second fill raises the BotCheckerError and leaves the object unchanged
instead of overwriting. -/
theorem fill_cb_spec (c : Checker) (cb : Nat) :
    (c.allOkEmpty = true →
      fill_ok_cb c cb = (c.withAllOk cb, none) ∧
      (fill_ok_cb c cb).1.allOkIs cb = true) ∧
    (c.okSlot.isSome = true →
      (fill_ok_cb c cb).1 = c ∧ (fill_ok_cb c cb).2.isSome = true) ∧
    (c.allFailEmpty = true →
      fill_fail_cb c cb = (c.withAllFail cb, none) ∧
      (fill_fail_cb c cb).1.allFailIs cb = true) ∧
    (c.failSlot.isSome = true →
      (fill_fail_cb c cb).1 = c ∧ (fill_fail_cb c cb).2.isSome = true) := by
  refine ⟨fun h => ?_, fill_ok_cb_dup c cb, fun h => ?_, fill_fail_cb_dup c cb⟩
  · have he := fill_ok_cb_fresh c cb h
    refine ⟨he, ?_⟩
    rw [he]
    exact withAllOk_allOkIs cb c
  · have he := fill_fail_cb_fresh c cb h
    refine ⟨he, ?_⟩
    rw [he]
    exact withAllFail_allFailIs cb c

/-- Three-leaf composite with all callback slots empty, for the fill
witness. -/
def treeW : Checker :=
  Checker.wrapped LogicMode.AND none none
    (Checker.wrapped LogicMode.OR none none
      (Checker.leaf 0 none none) (some (Checker.leaf 1 none none)))
    (some (Checker.leaf 2 none none))

/-- Witness for fill_cb_spec: a fresh three-leaf tree is filled
everywhere with the same reference, and a leaf with an occupied slot
rejects a second fill without overwriting. -/
theorem fill_cb_spec_witness :
    (fill_ok_cb treeW 5 = (treeW.withAllOk 5, none) ∧
      (fill_ok_cb treeW 5).1.allOkIs 5 = true) ∧
    ((fill_ok_cb (Checker.leaf 0 (some 9) none) 5).1
        = Checker.leaf 0 (some 9) none ∧
      (fill_ok_cb (Checker.leaf 0 (some 9) none) 5).2.isSome = true) ∧
    (fill_fail_cb treeW 6 = (treeW.withAllFail 6, none) ∧
      (fill_fail_cb treeW 6).1.allFailIs 6 = true) ∧
    ((fill_fail_cb (Checker.wrapped LogicMode.NOT none (some 9) leafC0 none) 6).1
        = Checker.wrapped LogicMode.NOT none (some 9) leafC0 none ∧
      (fill_fail_cb
          (Checker.wrapped LogicMode.NOT none (some 9) leafC0 none) 6).2.isSome
        = true) :=
  ⟨(fill_cb_spec treeW 5).1 (by rfl),
   (fill_cb_spec (Checker.leaf 0 (some 9) none) 5).2.1 (by rfl),
   (fill_cb_spec treeW 6).2.2.1 (by rfl),
   (fill_cb_spec (Checker.wrapped LogicMode.NOT none (some 9) leafC0 none)
      6).2.2.2 (by rfl)⟩

theorem sortByPriority_sorted (hs : List Handler) :
    List.Pairwise (fun a b : Handler => b.priority ≤ a.priority)
      (sortByPriority hs) := by
  have h := @List.sorted_mergeSort Handler
    (fun a b : Handler => decide (b.priority ≤ a.priority))
    (fun a b c hab hbc => by
      simp only [decide_eq_true_eq] at hab hbc ⊢
      exact le_trans hbc hab)
    (fun a b => by
      simp only [Bool.or_eq_true, decide_eq_true_eq]
      exact le_total b.priority a.priority)
    hs
  exact h.imp (by simp)

/-- C3: bind classifies every handler into the per-type list of its
family, leaves each per-type list sorted by priority in descending order,
and sets the ready signal; since this holds for every starting state, any
sequence of bind calls ends with sorted lists and a Ready dispatcher, and
re-binding can never un-ready it. -/
theorem bind_spec (d : BotDispatcher) (hs : List Handler) :
    (d.bind hs).ready = true ∧
    List.Pairwise (fun a b : Handler => b.priority ≤ a.priority)
      (d.bind hs).message ∧
    List.Pairwise (fun a b : Handler => b.priority ≤ a.priority)
      (d.bind hs).request ∧
    List.Pairwise (fun a b : Handler => b.priority ≤ a.priority)
      (d.bind hs).notice ∧
    ((d.bind hs).message).Perm
      (d.message ++ hs.filter (fun h => h.kind == HandlerKind.msg)) ∧
    ((d.bind hs).request).Perm
      (d.request ++ hs.filter (fun h => h.kind == HandlerKind.req)) ∧
    ((d.bind hs).notice).Perm
      (d.notice ++ hs.filter (fun h => h.kind == HandlerKind.notice)) :=
  ⟨rfl, sortByPriority_sorted _, sortByPriority_sorted _, sortByPriority_sorted _,
   List.mergeSort_perm _ _, List.mergeSort_perm _ _, List.mergeSort_perm _ _⟩

/-- The floor after a step, per the loop's update rule: raised to the
handler's priority exactly when evoke returned true, the handler is
marked blocking, and its priority strictly exceeds the floor at that
step; unchanged otherwise. -/
def stepNextFloor (s : Step) : Int :=
  match s.kind with
  | StepKind.invoked true =>
    if s.handler.set_block ∧ s.handler.priority > s.floor then s.handler.priority
    else s.floor
  | _ => s.floor

theorem stepNextFloor_ge (s : Step) : s.floor ≤ stepNextFloor s := by
  obtain ⟨h, fl, k⟩ := s
  cases k with
  | skipped => exact le_refl _
  | raised ex => exact le_refl _
  | invoked b =>
    cases b with
    | false => exact le_refl _
    | true =>
      simp only [stepNextFloor]
      by_cases hc : h.set_block ∧ h.priority > fl
      · rw [if_pos hc]
        exact le_of_lt hc.2
      · rw [if_neg hc]

theorem dispatchLoop_head_floor (event : BotEvent) (hs : List Handler) (fl : Int)
    (s : Step) (h : (dispatchLoop event hs fl).1.head? = some s) : s.floor = fl := by
  cases hs with
  | nil => simp [dispatchLoop] at h
  | cons hh rest =>
    unfold dispatchLoop at h
    by_cases hp : hh.priority < fl
    · rw [if_pos hp] at h
      simp only [List.head?_cons, Option.some.injEq] at h
      subst h
      rfl
    · rw [if_neg hp] at h
      cases he : hh.evoke event with
      | error ex =>
        rw [he] at h
        simp only [List.head?_cons, Option.some.injEq] at h
        subst h
        rfl
      | ok b =>
        rw [he] at h
        cases b <;>
          · simp only [List.head?_cons, Option.some.injEq] at h
            subst h
            rfl

theorem dispatchLoop_chain_next (event : BotEvent) :
    ∀ (hs : List Handler) (fl : Int),
      List.Chain' (fun a b => b.floor = stepNextFloor a) (dispatchLoop event hs fl).1
  | [], fl => by simp [dispatchLoop]
  | hh :: rest, fl => by
    by_cases hp : hh.priority < fl
    · simp only [dispatchLoop, if_pos hp]
      rw [List.chain'_cons']
      refine ⟨?_, dispatchLoop_chain_next event rest fl⟩
      intro s hsh
      rw [dispatchLoop_head_floor event rest fl s hsh]
      rfl
    · cases he : hh.evoke event with
      | error ex =>
        simp only [dispatchLoop, if_neg hp, he]
        simp
      | ok b =>
        cases b with
        | false =>
          simp only [dispatchLoop, if_neg hp, he]
          rw [List.chain'_cons']
          refine ⟨?_, dispatchLoop_chain_next event rest fl⟩
          intro s hsh
          rw [dispatchLoop_head_floor event rest fl s hsh]
          rfl
        | true =>
          simp only [dispatchLoop, if_neg hp, he]
          rw [List.chain'_cons']
          refine ⟨?_,
            dispatchLoop_chain_next event rest
              (if hh.set_block ∧ hh.priority > fl then hh.priority else fl)⟩
          intro s hsh
          rw [dispatchLoop_head_floor event rest _ s hsh]
          rfl

theorem dispatchLoop_skip_iff (event : BotEvent) :
    ∀ (hs : List Handler) (fl : Int) (s : Step),
      s ∈ (dispatchLoop event hs fl).1 →
      (s.kind = StepKind.skipped ↔ s.handler.priority < s.floor)
  | [], fl, s => by simp [dispatchLoop]
  | hh :: rest, fl, s => by
    intro hmem
    by_cases hp : hh.priority < fl
    · simp only [dispatchLoop, if_pos hp, List.mem_cons] at hmem
      rcases hmem with h0 | hrest
      · subst h0
        simp [hp]
      · exact dispatchLoop_skip_iff event rest fl s hrest
    · cases he : hh.evoke event with
      | error ex =>
        simp only [dispatchLoop, if_neg hp, he, List.mem_singleton] at hmem
        subst hmem
        simp [hp]
      | ok b =>
        cases b with
        | false =>
          simp only [dispatchLoop, if_neg hp, he, List.mem_cons] at hmem
          rcases hmem with h0 | hrest
          · subst h0
            simp [hp]
          · exact dispatchLoop_skip_iff event rest fl s hrest
        | true =>
          simp only [dispatchLoop, if_neg hp, he, List.mem_cons] at hmem
          rcases hmem with h0 | hrest
          · subst h0
            simp [hp]
          · exact dispatchLoop_skip_iff event rest _ s hrest

theorem dispatchLoop_handlers_prefix (event : BotEvent) :
    ∀ (hs : List Handler) (fl : Int),
      (dispatchLoop event hs fl).1.map Step.handler
        = hs.take (dispatchLoop event hs fl).1.length
  | [], fl => by simp [dispatchLoop]
  | hh :: rest, fl => by
    by_cases hp : hh.priority < fl
    · simp [dispatchLoop, hp, dispatchLoop_handlers_prefix event rest fl]
    · cases he : hh.evoke event with
      | error ex => simp [dispatchLoop, hp, he]
      | ok b =>
        cases b with
        | false =>
          simp [dispatchLoop, hp, he, dispatchLoop_handlers_prefix event rest fl]
        | true =>
          simp [dispatchLoop, hp, he,
            dispatchLoop_handlers_prefix event rest
              (if hh.set_block ∧ hh.priority > fl then hh.priority else fl)]

theorem dispatchLoop_error_last (event : BotEvent) :
    ∀ (hs : List Handler) (fl : Int) (ex : Exn),
      (dispatchLoop event hs fl).2 = some ex →
      (dispatchLoop event hs fl).1 ≠ [] ∧
      ∀ s, (dispatchLoop event hs fl).1.getLast? = some s →
        s.kind = StepKind.raised ex
  | [], fl, ex => by simp [dispatchLoop]
  | hh :: rest, fl, ex => by
    intro herr
    by_cases hp : hh.priority < fl
    · simp only [dispatchLoop, if_pos hp] at herr ⊢
      obtain ⟨hne, hlast⟩ := dispatchLoop_error_last event rest fl ex herr
      obtain ⟨s1, rest1, heq⟩ := List.exists_cons_of_ne_nil hne
      rw [heq]
      refine ⟨by simp, ?_⟩
      intro s hs
      rw [List.getLast?_cons_cons] at hs
      exact hlast s (by rw [heq]; exact hs)
    · cases he : hh.evoke event with
      | error ex0 =>
        simp only [dispatchLoop, if_neg hp, he] at herr ⊢
        simp only [Option.some.injEq] at herr
        subst herr
        refine ⟨by simp, ?_⟩
        intro s hs
        simp only [List.getLast?_singleton, Option.some.injEq] at hs
        subst hs
        rfl
      | ok b =>
        cases b with
        | false =>
          simp only [dispatchLoop, if_neg hp, he] at herr ⊢
          obtain ⟨hne, hlast⟩ := dispatchLoop_error_last event rest fl ex herr
          obtain ⟨s1, rest1, heq⟩ := List.exists_cons_of_ne_nil hne
          rw [heq]
          refine ⟨by simp, ?_⟩
          intro s hs
          rw [List.getLast?_cons_cons] at hs
          exact hlast s (by rw [heq]; exact hs)
        | true =>
          simp only [dispatchLoop, if_neg hp, he] at herr ⊢
          obtain ⟨hne, hlast⟩ :=
            dispatchLoop_error_last event rest
              (if hh.set_block ∧ hh.priority > fl then hh.priority else fl) ex herr
          obtain ⟨s1, rest1, heq⟩ := List.exists_cons_of_ne_nil hne
          rw [heq]
          refine ⟨by simp, ?_⟩
          intro s hs
          rw [List.getLast?_cons_cons] at hs
          exact hlast s (by rw [heq]; exact hs)

/-- C1: within one dispatch loop the floor starts at the minimum priority
level (the first trace entry is taken at floor = PriorityLevel_MIN), the
floor is monotonically non-decreasing along the trace, a handler's evoke
is invoked exactly when its priority is at least the floor at that moment
(equal priority is still invoked; strictly below is skipped unevaluated),
and each step's floor arises from the previous one by stepNextFloor:
raised to the handler's priority exactly when evoke returned true, the
handler is blocking, and its priority strictly exceeds the current floor. -/
theorem dispatch_floor_spec (event : BotEvent) (hs : List Handler) :
    (∀ s, (dispatchLoop event hs PriorityLevel_MIN).1.head? = some s →
      s.floor = PriorityLevel_MIN) ∧
    List.Chain' (fun a b => a.floor ≤ b.floor)
      (dispatchLoop event hs PriorityLevel_MIN).1 ∧
    (∀ s ∈ (dispatchLoop event hs PriorityLevel_MIN).1,
      (s.isInvoked ↔ s.floor ≤ s.handler.priority)) ∧
    List.Chain' (fun a b => b.floor = stepNextFloor a)
      (dispatchLoop event hs PriorityLevel_MIN).1 := by
  refine ⟨fun s h => dispatchLoop_head_floor event hs PriorityLevel_MIN s h,
    ?_, ?_, dispatchLoop_chain_next event hs PriorityLevel_MIN⟩
  · exact (dispatchLoop_chain_next event hs PriorityLevel_MIN).imp
      (fun a b hab => by rw [hab]; exact stepNextFloor_ge a)
  · intro s hmem
    have hiff := dispatchLoop_skip_iff event hs PriorityLevel_MIN s hmem
    unfold Step.isInvoked
    constructor
    · intro hninv
      by_contra hlt
      exact hninv (hiff.mpr (lt_of_not_le hlt))
    · intro hle hk
      exact absurd (hiff.mp hk) (not_lt_of_le hle)

/-- Event, handlers and dispatcher used by the dispatch witnesses:
the blocking/equal-priority scenario of the spec. -/
def evW : BotEvent := ⟨"message", "raw-payload", ⟨none⟩⟩

def hA : Handler := ⟨HandlerKind.msg, 10, true, fun _ => Except.ok true⟩

def hC : Handler := ⟨HandlerKind.msg, 10, false, fun _ => Except.ok true⟩

def hB : Handler := ⟨HandlerKind.msg, 5, false, fun _ => Except.ok true⟩

def stepsW : List Step := (dispatchLoop evW [hA, hC, hB] PriorityLevel_MIN).1

/-- Witness for dispatch_floor_spec, on the scenario A(10, blocking,
passes), C(10, non-blocking), B(5): A and C are invoked, B is skipped
once A's block has raised the floor to 10. -/
theorem dispatch_floor_spec_witness :
    (Step.mk hA PriorityLevel_MIN (StepKind.invoked true)).floor
        = PriorityLevel_MIN ∧
    ((Step.mk hB 10 StepKind.skipped).isInvoked
      ↔ (10 : Int) ≤ (Step.mk hB 10 StepKind.skipped).handler.priority) ∧
    List.Chain' (fun a b => a.floor ≤ b.floor) stepsW ∧
    List.Chain' (fun a b => b.floor = stepNextFloor a) stepsW := by
  have h := dispatch_floor_spec evW [hA, hC, hB]
  refine ⟨h.1 _ rfl, ?_, h.2.1, h.2.2.2⟩
  exact h.2.2.1 (Step.mk hB 10 StepKind.skipped)
    (List.mem_cons_of_mem _ (List.mem_cons_of_mem _ (List.mem_cons_self _ _)))

/-- C2: when some handler's evoke raises during the dispatch loop, the
loop stops at that handler (the trace covers exactly an initial segment
of the handler list, and its last entry is the raising step, so no later
handler is invoked), and dispatch returns normally with exactly the three
log entries of the except-clause — the error naming the exception, the
offending event's raw payload, and the stack trace — the exception being
swallowed rather than propagated. -/
theorem dispatch_error_spec (d : BotDispatcher) (event : BotEvent)
    (hs : List Handler) (ex : Exn)
    (hls : d.handlersFor event.type = some hs)
    (herr : (dispatchLoop event hs PriorityLevel_MIN).2 = some ex) :
    d.dispatch event
      = ((dispatchLoop event hs PriorityLevel_MIN).1, dispatchErrLogs ex event) ∧
    (dispatchLoop event hs PriorityLevel_MIN).1.map Step.handler
      = hs.take (dispatchLoop event hs PriorityLevel_MIN).1.length ∧
    (dispatchLoop event hs PriorityLevel_MIN).1 ≠ [] ∧
    (∀ s, (dispatchLoop event hs PriorityLevel_MIN).1.getLast? = some s →
      s.kind = StepKind.raised ex) := by
  obtain ⟨hne, hlast⟩ :=
    dispatchLoop_error_last event hs PriorityLevel_MIN ex herr
  refine ⟨?_, dispatchLoop_handlers_prefix event hs PriorityLevel_MIN, hne, hlast⟩
  have hsplit : dispatchLoop event hs PriorityLevel_MIN
      = ((dispatchLoop event hs PriorityLevel_MIN).1, some ex) := by
    rw [← herr]
  have hgoal : BotDispatcher.dispatch d event
      = (match dispatchLoop event hs PriorityLevel_MIN with
         | (steps, none) => (steps, ([] : List LogEntry))
         | (steps, some ex0) => (steps, dispatchErrLogs ex0 event)) := by
    unfold BotDispatcher.dispatch
    rw [hls]
  rw [hgoal, hsplit]

/-- Exception and handlers used by the error-path witness. -/
def exnW : Exn := ⟨"RuntimeError", "boom", "Traceback (most recent call last): ..."⟩

def raiserH : Handler := ⟨HandlerKind.msg, 10, false, fun _ => Except.error exnW⟩

def okH : Handler := ⟨HandlerKind.msg, 5, false, fun _ => Except.ok true⟩

def dW : BotDispatcher := ⟨[raiserH, okH], [], [], true⟩

/-- Witness for dispatch_error_spec: the raising handler ends the trace,
the later handler is never reached, and dispatch returns the three log
entries. -/
theorem dispatch_error_spec_witness :
    dW.dispatch evW
      = ([Step.mk raiserH PriorityLevel_MIN (StepKind.raised exnW)],
         dispatchErrLogs exnW evW) :=
  (dispatch_error_spec dW evW [raiserH, okH] exnW rfl rfl).1

/-- C10: on a Ready dispatcher, an event whose type is not message,
request or notice reaches no handler list: the dict lookup raises
KeyError inside the try, which the per-event boundary logs and swallows,
so dispatch invokes no handler and returns normally — the event is
silently dropped. -/
theorem dispatch_unknown_type_spec (d : BotDispatcher) (event : BotEvent)
    (_hready : d.ready = true)
    (hm : event.type ≠ "message") (hr : event.type ≠ "request")
    (hn : event.type ≠ "notice") :
    d.dispatch event = ([], dispatchErrLogs (keyErrorExn event.type) event) := by
  unfold BotDispatcher.dispatch BotDispatcher.handlersFor
  simp [hm, hr, hn]

/-- Meta event used by the unknown-type witness. -/
def metaEvW : BotEvent := ⟨"meta", "meta-raw", ⟨none⟩⟩

/-- Witness for dispatch_unknown_type_spec: a meta event on a Ready
dispatcher produces no steps and only the KeyError log entries. -/
theorem dispatch_unknown_type_spec_witness :
    dW.dispatch metaEvW = ([], dispatchErrLogs (keyErrorExn "meta") metaEvW) :=
  dispatch_unknown_type_spec dW metaEvW rfl (by decide) (by decide) (by decide)
